import Mathlib

/-!
# cpucount

A shallow embedding of `tools/mingw-make/cpucount.c` and the properties of its
command-line contract.

The program is one function, `main`, which calls three library routines:
`GetSystemInfo` (the host query), `strcmp` and `printf`.  The host query is a
parameter of the embedding (the `SYSTEM_INFO` record it fills in); `strcmp` and
the two `printf` conversions the program uses are given their C meaning below.
A run of `main` is recorded as the sequence of library calls it makes together
with the value it returns.
-/

namespace Cpucount

/-! ## Machine integers -/

/-- Number of values of a `DWORD` (`unsigned long` on Windows: 32 bits). -/
def DWORD_RANGE : Nat := 2 ^ 32

/-- Largest value of a `long` on Windows (32 bits, signed), plus one. -/
def LONG_LIMIT : Nat := 2 ^ 31

/-- The record `GetSystemInfo` fills in.  `main` reads one member of it,
`dwNumberOfProcessors`, a `DWORD`; the other members are never read. -/
structure SYSTEM_INFO where
  dwNumberOfProcessors : Nat
  deriving DecidableEq

/-- The 32-bit pattern `x` read as a `long`: what `printf` obtains when the
conversion `%ld` fetches an argument that was passed as a `DWORD`.  Patterns
below 2^31 keep their value; a pattern from 2^31 on is read as that value
minus 2^32, as the Windows C runtime does. -/
def asLong (x : Nat) : Int :=
  if x % DWORD_RANGE < LONG_LIMIT then ((x % DWORD_RANGE : Nat) : Int)
  else ((x % DWORD_RANGE : Nat) : Int) - (DWORD_RANGE : Int)

/-! ## Library routines -/

/-- Signed decimal text of an integer, as the conversion `%ld` writes it:
a minus sign for a negative value, then the digits of the magnitude, with no
padding. -/
def fmtLong (v : Int) : String :=
  if v < 0 then "-" ++ Nat.repr v.natAbs else Nat.repr v.toNat

/-- Text written by `printf("%ld\n", x)` for a `DWORD` argument `x`. -/
def printf_ld (x : Nat) : String :=
  fmtLong (asLong x) ++ "\n"

/-- The format string of the third `printf` call; it has no conversion, so it
is written as it stands. -/
def unknownParameter : String := "Unknown parameter specified. Exiting.\n"

/-- Comparison of the contents of two C strings, character by character; the
end of a string is its terminator, which is smaller than every character of a
string.  The sign of the result is what C specifies. -/
def strcmpChars : List Char → List Char → Int
  | [], [] => 0
  | [], _ :: _ => -1
  | _ :: _, [] => 1
  | a :: s1, b :: s2 =>
    if a = b then strcmpChars s1 s2
    else if a.toNat < b.toNat then -1 else 1

/-- The routine `strcmp` of the C library on the contents of two C strings (the
characters before the terminating NUL). -/
def strcmp (s1 s2 : String) : Int :=
  strcmpChars s1.data s2.data

/-! ## Runs -/

/-- What a run of `main` does, in order: evaluations of `argv[i]` and the
library calls. -/
inductive Effect where
  | readArgv (i : Nat)
  | strcmp (s1 s2 : String)
  | GetSystemInfo
  | printf (text : String)
  deriving DecidableEq

/-- The two ways a run can leave the defined behaviour of C. -/
inductive Fault where
  | outOfBounds
  | nullString
  deriving DecidableEq

/-- Result of a run: the effects performed and either the value `main` returns
or the fault at which the run stops being defined. -/
inductive Outcome where
  | exit (trace : List Effect) (code : Int)
  | fault (trace : List Effect) (why : Fault)
  deriving DecidableEq

/-- Effects of a run. -/
def Outcome.trace : Outcome → List Effect
  | .exit t _ => t
  | .fault t _ => t

/-- Exit code of a run that returns. -/
def Outcome.code : Outcome → Option Int
  | .exit _ c => some c
  | .fault _ _ => none

/-- Texts of the `printf` calls of a trace, in order: the writes to standard
output. -/
def writes : List Effect → List String
  | [] => []
  | .printf text :: rest => text :: writes rest
  | _ :: rest => writes rest

/-- Everything a run wrote to standard output. -/
def Outcome.stdout (o : Outcome) : String :=
  String.join (writes o.trace)

/-- An effect that only reads: it changes nothing outside the run. -/
def Effect.isRead : Effect → Bool
  | .printf _ => false
  | _ => true

/-! ## The program -/

/-- The function `main` of `cpucount.c`.  `argv` is the array the C runtime
passes, a null pointer being `none`; `SystemInformation` is what
`GetSystemInfo` stores on this host. -/
def main (argc : Int) (argv : List (Option String)) (SystemInformation : SYSTEM_INFO) :
    Outcome :=
  if argc = 1 then
    .exit [.GetSystemInfo, .printf (printf_ld SystemInformation.dwNumberOfProcessors)] 0
  else
    match argv[1]? with
    | none => .fault [.readArgv 1] .outOfBounds
    | some none => .fault [.readArgv 1] .nullString
    | some (some arg) =>
      if strcmp arg "-x2" = 0 then
        .exit [.readArgv 1, .strcmp arg "-x2", .GetSystemInfo,
          .printf (printf_ld ((SystemInformation.dwNumberOfProcessors +
            SystemInformation.dwNumberOfProcessors) % DWORD_RANGE))] 0
      else
        .exit [.readArgv 1, .strcmp arg "-x2", .printf unknownParameter] 1

/-- The C startup convention: `argc` is not negative, `argv` has `argc + 1`
entries, the first `argc` are strings and `argv[argc]` is a null pointer. -/
def startup (argc : Int) (argv : List (Option String)) : Bool :=
  decide (0 ≤ argc) && decide (argv.length = argc.toNat + 1) &&
    (argv.take argc.toNat).all Option.isSome && decide (argv[argc.toNat]? = some none)

/-- The argument vector of a command line: the program name, the arguments, and
the closing null pointer. -/
def commandLine (program : String) (arguments : List String) : List (Option String) :=
  some program :: (arguments.map some ++ [none])

/-! ## Reading decimal text back -/

/-- Value of a decimal digit character. -/
def digitValue (c : Char) : Nat := c.toNat - 48

/-- Number denoted by a run of decimal digits, most significant first. -/
def readDigits (cs : List Char) : Nat :=
  cs.foldl (fun acc c => 10 * acc + digitValue c) 0

/-- A plain decimal numeral: digits only, at least one, no sign, and no leading
zero except for the numeral `0` itself. -/
def isPlainDecimal (s : String) : Bool :=
  !s.data.isEmpty && s.data.all Char.isDigit &&
    (s.data.head? != some (Nat.digitChar 0) || s.data.length == 1)

/-! ## Facts about the library routines -/

/-- The comparison gives 0 exactly on equal contents. -/
theorem strcmpChars_eq_zero (s1 : List Char) : ∀ s2 : List Char,
    strcmpChars s1 s2 = 0 ↔ s1 = s2 := by
  induction s1 with
  | nil =>
    intro s2
    cases s2 <;> simp [strcmpChars]
  | cons a s1 ih =>
    intro s2
    cases s2 with
    | nil => simp [strcmpChars]
    | cons b s2 =>
      by_cases hab : a = b
      · simp [strcmpChars, hab, ih]
      · have : (if a.toNat < b.toNat then (-1 : Int) else 1) ≠ 0 := by
          split <;> decide
        simp [strcmpChars, hab, this]

/-- The routine `strcmp` returns 0 exactly when the two strings are equal. -/
theorem strcmp_eq_zero (s1 s2 : String) : strcmp s1 s2 = 0 ↔ s1 = s2 := by
  unfold strcmp
  rw [strcmpChars_eq_zero]
  constructor
  · intro h
    exact String.ext h
  · intro h
    rw [h]

/-- The character of a digit below 10 is a digit character, has that digit as its
value, and is `0` only for the digit 0. -/
theorem digitChar_facts (m : Nat) (hm : m < 10) :
    (Nat.digitChar m).isDigit = true ∧ digitValue (Nat.digitChar m) = m ∧
      (Nat.digitChar m = Nat.digitChar 0 → m = 0) := by
  interval_cases m <;> decide

/-- With more fuel than the number, the digit loop puts the digits of the number
in front of the accumulator. -/
theorem toDigitsCore_fuel : ∀ (n fuel : Nat) (acc : List Char), n < fuel →
    Nat.toDigitsCore 10 fuel n acc = Nat.toDigits 10 n ++ acc := by
  intro n
  induction n using Nat.strong_induction_on with
  | _ n ih =>
    intro fuel acc hlt
    obtain ⟨f, rfl⟩ : ∃ f, fuel = f + 1 := ⟨fuel - 1, by omega⟩
    unfold Nat.toDigits
    simp only [Nat.toDigitsCore]
    by_cases h0 : n / 10 = 0
    · simp [h0]
    · have hdiv : n / 10 < n := by omega
      simp only [h0, if_false]
      rw [ih (n / 10) hdiv f _ (by omega), ih (n / 10) hdiv n _ hdiv]
      simp

/-- A number below 10 has one digit. -/
theorem toDigits_small (n : Nat) (h : n < 10) :
    Nat.toDigits 10 n = [Nat.digitChar n] := by
  unfold Nat.toDigits
  simp only [Nat.toDigitsCore]
  have h0 : n / 10 = 0 := by omega
  have h1 : n % 10 = n := by omega
  simp [h0, h1]

/-- The digits of a number from 10 on are those of its tenth followed by its last digit. -/
theorem toDigits_step (n : Nat) (h : 10 ≤ n) :
    Nat.toDigits 10 n = Nat.toDigits 10 (n / 10) ++ [Nat.digitChar (n % 10)] := by
  have h0 : n / 10 ≠ 0 := by omega
  have hdiv : n / 10 < n := by omega
  conv_lhs => unfold Nat.toDigits
  simp only [Nat.toDigitsCore, h0, if_false]
  exact toDigitsCore_fuel (n / 10) n _ hdiv

/-- Reading one more digit multiplies the value read so far by 10 and adds the digit. -/
theorem readDigits_snoc (ds : List Char) (c : Char) :
    readDigits (ds ++ [c]) = 10 * readDigits ds + digitValue c := by
  simp [readDigits, List.foldl_append]

/-- The decimal digits of `n`: a non-empty run of digit characters that reads
back as `n` and starts with `0` only when `n = 0`. -/
theorem toDigits_decimal (n : Nat) :
    Nat.toDigits 10 n ≠ [] ∧ (∀ c ∈ Nat.toDigits 10 n, c.isDigit = true) ∧
      readDigits (Nat.toDigits 10 n) = n ∧
      ((Nat.toDigits 10 n).head? = some (Nat.digitChar 0) → n = 0) := by
  induction n using Nat.strong_induction_on with
  | _ n ih =>
    by_cases hs : n < 10
    · rw [toDigits_small n hs]
      obtain ⟨hd, hv, hz⟩ := digitChar_facts n hs
      refine ⟨by simp, ?_, ?_, ?_⟩
      · intro c hc
        rw [List.mem_singleton] at hc
        rw [hc]
        exact hd
      · simp [readDigits, hv]
      · intro hh
        simp only [List.head?_cons, Option.some.injEq] at hh
        exact hz hh
    · have hge : 10 ≤ n := by omega
      rw [toDigits_step n hge]
      obtain ⟨hne, hall, hval, hhead⟩ := ih (n / 10) (by omega)
      obtain ⟨hd, hv, _⟩ := digitChar_facts (n % 10) (Nat.mod_lt _ (by decide))
      refine ⟨by simp, ?_, ?_, ?_⟩
      · intro c hc
        rcases List.mem_append.mp hc with hc | hc
        · exact hall c hc
        · rw [List.mem_singleton] at hc
          rw [hc]
          exact hd
      · rw [readDigits_snoc, hval, hv]
        omega
      · intro hh
        have : (Nat.toDigits 10 (n / 10)).head? = some (Nat.digitChar 0) := by
          cases hds : Nat.toDigits 10 (n / 10) with
          | nil => exact absurd hds hne
          | cons d ds =>
            rw [hds] at hh
            simpa using hh
        have := hhead this
        omega


/-- A pattern below 2^31 is read as itself. -/
theorem asLong_small (x : Nat) (h : x < 2 ^ 31) : asLong x = (x : Int) := by
  unfold asLong DWORD_RANGE LONG_LIMIT
  have h1 : x % 2 ^ 32 = x := Nat.mod_eq_of_lt (by omega)
  rw [h1, if_pos h]

/-- A pattern from 2^31 on is read as a negative number. -/
theorem asLong_large (x : Nat) (h1 : 2 ^ 31 ≤ x) (h2 : x < 2 ^ 32) :
    asLong x = (x : Int) - 2 ^ 32 := by
  unfold asLong DWORD_RANGE LONG_LIMIT
  have h3 : x % 2 ^ 32 = x := Nat.mod_eq_of_lt h2
  rw [h3, if_neg (by omega)]
  norm_num

/-- A natural number is written as its decimal representation. -/
theorem fmtLong_natCast (n : Nat) : fmtLong (n : Int) = Nat.repr n := by
  unfold fmtLong
  rw [if_neg (by omega)]
  simp

/-- The characters of the decimal representation are the decimal digits. -/
theorem repr_data (n : Nat) : (Nat.repr n).data = Nat.toDigits 10 n := by
  simp [Nat.repr, List.asString]

/-- The characters `%ld` writes: a minus sign and the digits of the magnitude when
the value is negative, the digits alone otherwise. -/
theorem fmtLong_data (v : Int) :
    (fmtLong v).data =
      if v < 0 then Char.ofNat 45 :: Nat.toDigits 10 v.natAbs else Nat.toDigits 10 v.toNat := by
  unfold fmtLong
  split
  · rw [String.data_append, repr_data]
    rfl
  · rw [repr_data]

/-- No decimal digit is a minus sign. -/
theorem minus_not_digit (n : Nat) : Char.ofNat 45 ∉ Nat.toDigits 10 n := by
  intro h
  have := (toDigits_decimal n).2.1 _ h
  revert this
  decide

/-- No decimal digit is a newline. -/
theorem newline_not_digit (n : Nat) : Char.ofNat 10 ∉ Nat.toDigits 10 n := by
  intro h
  have := (toDigits_decimal n).2.1 _ h
  revert this
  decide

/-- Different numbers have different digits. -/
theorem toDigits_injective (a b : Nat) (h : Nat.toDigits 10 a = Nat.toDigits 10 b) : a = b := by
  have ha := (toDigits_decimal a).2.2.1
  have hb := (toDigits_decimal b).2.2.1
  rw [h] at ha
  omega

/-- Different integers are written differently. -/
theorem fmtLong_injective (v w : Int) (h : fmtLong v = fmtLong w) : v = w := by
  have hd := congrArg String.data h
  rw [fmtLong_data, fmtLong_data] at hd
  by_cases hv : v < 0 <;> by_cases hw : w < 0
  · rw [if_pos hv, if_pos hw] at hd
    have := toDigits_injective _ _ (List.cons.inj hd).2
    omega
  · rw [if_pos hv, if_neg hw] at hd
    exact absurd (hd ▸ List.mem_cons_self _ _) (minus_not_digit _)
  · rw [if_neg hv, if_pos hw] at hd
    exact absurd (hd.symm ▸ List.mem_cons_self _ _) (minus_not_digit _)
  · rw [if_neg hv, if_neg hw] at hd
    have := toDigits_injective _ _ hd
    omega

/-- The text of an integer has no newline. -/
theorem newline_not_in_fmtLong (v : Int) : Char.ofNat 10 ∉ (fmtLong v).data := by
  rw [fmtLong_data]
  split
  · intro h
    rcases List.mem_cons.mp h with h | h
    · revert h
      decide
    · exact newline_not_digit _ h
  · exact newline_not_digit _

/-- Two texts that agree after a newline is added agree. -/
theorem append_newline_cancel (s t : String) (h : s ++ "\n" = t ++ "\n") : s = t := by
  have hd := congrArg String.data h
  rw [String.data_append, String.data_append] at hd
  exact String.ext (List.append_cancel_right hd)

/-- For an argument below 2^31, `%ld` followed by a newline writes the decimal
representation of the argument and a newline. -/
theorem printf_ld_small (x : Nat) (h : x < 2 ^ 31) : printf_ld x = Nat.repr x ++ "\n" := by
  unfold printf_ld
  rw [asLong_small x h, fmtLong_natCast]

/-- Joining one text gives that text. -/
theorem join_single (s : String) : String.join [s] = s := by
  simp [String.join]


/-- Under the startup convention with `argc ≥ 2`, `argv[1]` is a string. -/
theorem startup_first_argument (argc : Int) (argv : List (Option String))
    (hs : startup argc argv = true) (h2 : 2 ≤ argc) : ∃ s, argv[1]? = some (some s) := by
  unfold startup at hs
  simp only [Bool.and_eq_true, decide_eq_true_eq, List.all_eq_true] at hs
  obtain ⟨⟨⟨_, hlen⟩, hall⟩, _⟩ := hs
  have hk : 2 ≤ argc.toNat := by omega
  have h1 : 1 < argv.length := by omega
  have hmem : argv[1] ∈ argv.take argc.toNat := by
    rw [List.mem_iff_getElem?]
    refine ⟨1, ?_⟩
    rw [List.getElem?_take_of_lt (by omega), List.getElem?_eq_getElem h1]
  have hsome := hall _ hmem
  cases hv : argv[1] with
  | none => rw [hv] at hsome; exact absurd hsome (by decide)
  | some s => exact ⟨s, by rw [List.getElem?_eq_getElem h1, hv]⟩

/-- Under the startup convention with `argc = 0`, the array has no entry at index 1. -/
theorem startup_zero (argv : List (Option String)) (hs : startup 0 argv = true) :
    argv[1]? = none := by
  unfold startup at hs
  simp only [Bool.and_eq_true, decide_eq_true_eq] at hs
  obtain ⟨⟨⟨_, hlen⟩, _⟩, _⟩ := hs
  rw [List.getElem?_eq_none_iff]
  simp at hlen
  omega

/-- The run of `main` when `argc = 1`. -/
theorem main_no_argument (argv : List (Option String)) (info : SYSTEM_INFO) :
    main 1 argv info =
      .exit [.GetSystemInfo, .printf (printf_ld info.dwNumberOfProcessors)] 0 := by
  simp [main]

/-- The run of `main` when `argv[1]` is `-x2`. -/
theorem main_x2 (argc : Int) (argv : List (Option String)) (info : SYSTEM_INFO)
    (h2 : 2 ≤ argc) (hx : argv[1]? = some (some "-x2")) :
    main argc argv info =
      .exit [.readArgv 1, .strcmp "-x2" "-x2", .GetSystemInfo,
        .printf (printf_ld ((info.dwNumberOfProcessors + info.dwNumberOfProcessors)
          % DWORD_RANGE))] 0 := by
  have hne : argc ≠ 1 := by omega
  have hz : strcmp "-x2" "-x2" = 0 := (strcmp_eq_zero _ _).mpr rfl
  simp only [main, hne, if_false, hx, hz, if_true]

/-- The run of `main` when `argv[1]` is a string other than `-x2`. -/
theorem main_other (argc : Int) (argv : List (Option String)) (info : SYSTEM_INFO)
    (s : String) (h2 : 2 ≤ argc) (h1 : argv[1]? = some (some s)) (hne : s ≠ "-x2") :
    main argc argv info =
      .exit [.readArgv 1, .strcmp s "-x2", .printf unknownParameter] 1 := by
  have hc : argc ≠ 1 := by omega
  have hz : strcmp s "-x2" ≠ 0 := fun h => hne ((strcmp_eq_zero _ _).mp h)
  simp only [main, hc, if_false, h1, hz]

/-- Under the startup convention with `argc ≥ 1`, the run of `main` returns. -/
theorem main_returns (argc : Int) (argv : List (Option String)) (info : SYSTEM_INFO)
    (hs : startup argc argv = true) (h1 : 1 ≤ argc) :
    ∃ trace code, main argc argv info = .exit trace code := by
  by_cases hone : argc = 1
  · subst hone
    exact ⟨_, _, main_no_argument argv info⟩
  · have h2 : 2 ≤ argc := by omega
    obtain ⟨s, hsome⟩ := startup_first_argument argc argv hs h2
    by_cases hx : s = "-x2"
    · subst hx
      exact ⟨_, _, main_x2 argc argv info h2 hsome⟩
    · exact ⟨_, _, main_other argc argv info s h2 hsome hx⟩


/-! ## The command-line contract -/

/-- C1, as stated, fails: with `-x2` on a host whose processor count is 2^31 the
program prints `0`, not the decimal representation of 2 × 2^31. -/
theorem x2_wraps_at_two_pow_31 :
    (main 2 (commandLine "cpucount" ["-x2"]) ⟨2147483648⟩).stdout = "0\n" ∧
      (main 2 (commandLine "cpucount" ["-x2"]) ⟨2147483648⟩).stdout ≠
        Nat.repr (2 * 2147483648) ++ "\n" := by
  decide

/-- C1, amended: for every host processor count N below 2^30, `main` called with
`-x2` as its first argument writes exactly the decimal representation of 2 × N
followed by a newline, in one write, and returns 0; N is the value the
invocation without arguments prints on that host. -/
theorem x2_prints_double (argc : Int) (argv : List (Option String)) (N : Nat)
    (h2 : 2 ≤ argc) (hx : argv[1]? = some (some "-x2")) (hN : N < 2 ^ 30) :
    (main argc argv ⟨N⟩).stdout = Nat.repr (2 * N) ++ "\n" ∧
      writes (main argc argv ⟨N⟩).trace = [Nat.repr (2 * N) ++ "\n"] ∧
      (main argc argv ⟨N⟩).code = some 0 ∧
      (main 1 argv ⟨N⟩).stdout = Nat.repr N ++ "\n" := by
  have hsum : (N + N) % DWORD_RANGE = 2 * N := by
    unfold DWORD_RANGE
    omega
  rw [main_x2 argc argv ⟨N⟩ h2 hx, main_no_argument]
  simp only [hsum, printf_ld_small (2 * N) (by omega), printf_ld_small N (by omega)]
  simp [Outcome.stdout, Outcome.trace, Outcome.code, writes, join_single]

/-- C1, amended, on a host with 4 processors: `cpucount -x2` prints 8. -/
theorem x2_prints_double_witness :
    (2 : Int) ≤ 2 ∧ (commandLine "cpucount" ["-x2"])[1]? = some (some "-x2") ∧ 4 < 2 ^ 30 ∧
      (main 2 (commandLine "cpucount" ["-x2"]) ⟨4⟩).stdout = Nat.repr (2 * 4) ++ "\n" ∧
      writes (main 2 (commandLine "cpucount" ["-x2"]) ⟨4⟩).trace = [Nat.repr (2 * 4) ++ "\n"] ∧
      (main 2 (commandLine "cpucount" ["-x2"]) ⟨4⟩).code = some 0 ∧
      (main 1 (commandLine "cpucount" ["-x2"]) ⟨4⟩).stdout = Nat.repr 4 ++ "\n" :=
  ⟨by decide, by decide, by decide,
    x2_prints_double 2 (commandLine "cpucount" ["-x2"]) 4 (by decide) (by decide) (by decide)⟩

/-- C2 at the failing input: without arguments on a host whose processor count
is 2^31, `main` writes `-2147483648` and a newline, which is not the decimal
representation of the count, and returns 0. -/
theorem no_argument_prints_negative :
    main 1 (commandLine "cpucount" []) ⟨2147483648⟩ =
        .exit [.GetSystemInfo, .printf "-2147483648\n"] 0 ∧
      (main 1 (commandLine "cpucount" []) ⟨2147483648⟩).stdout ≠
        Nat.repr 2147483648 ++ "\n" := by
  decide

/-- Without arguments and a processor count below 2^31, `main` writes the
decimal representation of the count and a newline, and returns 0. -/
theorem no_argument_prints_count (argv : List (Option String)) (N : Nat) (hN : N < 2 ^ 31) :
    main 1 argv ⟨N⟩ = .exit [.GetSystemInfo, .printf (Nat.repr N ++ "\n")] 0 := by
  rw [main_no_argument]
  simp only [printf_ld_small N hN]

/-- C3: whatever the host processor count, when the first argument is a string
other than `-x2`, `main` writes exactly `Unknown parameter specified. Exiting.`
followed by a newline, in one write, and returns 1. -/
theorem unknown_parameter (argc : Int) (argv : List (Option String)) (s : String)
    (info : SYSTEM_INFO) (h2 : 2 ≤ argc) (h1 : argv[1]? = some (some s)) (hne : s ≠ "-x2") :
    (main argc argv info).stdout = "Unknown parameter specified. Exiting.\n" ∧
      writes (main argc argv info).trace = ["Unknown parameter specified. Exiting.\n"] ∧
      (main argc argv info).code = some 1 := by
  rw [main_other argc argv info s h2 h1 hne]
  simp [Outcome.stdout, Outcome.trace, Outcome.code, writes, join_single, unknownParameter]

/-- C3 for the argument `-x3` on a host with 8 processors. -/
theorem unknown_parameter_witness :
    (2 : Int) ≤ 2 ∧ (commandLine "cpucount" ["-x3"])[1]? = some (some "-x3") ∧ "-x3" ≠ "-x2" ∧
      (main 2 (commandLine "cpucount" ["-x3"]) ⟨8⟩).stdout =
        "Unknown parameter specified. Exiting.\n" ∧
      writes (main 2 (commandLine "cpucount" ["-x3"]) ⟨8⟩).trace =
        ["Unknown parameter specified. Exiting.\n"] ∧
      (main 2 (commandLine "cpucount" ["-x3"]) ⟨8⟩).code = some 1 :=
  ⟨by decide, by decide, by decide,
    unknown_parameter 2 (commandLine "cpucount" ["-x3"]) "-x3" ⟨8⟩ (by decide) (by decide)
      (by decide)⟩

/-- The strings the contract singles out are all rejected: the empty string,
`-x3`, a change of case, a longer string starting with `-x2`, and a proper
beginning of `-x2`. -/
theorem unknown_parameter_examples :
    ∀ s ∈ ["", "-x3", "-X2", "-x2 ", "-x22", "-x", "-"],
      main 2 (commandLine "cpucount" [s]) ⟨8⟩ =
        .exit [.readArgv 1, .strcmp s "-x2", .printf "Unknown parameter specified. Exiting.\n"] 1 := by
  decide


/-- Under the startup convention with `argc = 1`, `argv[1]` is the closing null pointer. -/
theorem startup_one (argv : List (Option String)) (hs : startup 1 argv = true) :
    argv[1]? = some none := by
  unfold startup at hs
  simp only [Bool.and_eq_true, decide_eq_true_eq] at hs
  exact hs.2

/-- C4: for every argument vector with `argc ≥ 1` and every host, `main` returns,
and it returns 0 exactly when there is no argument or the first argument is
`-x2`, and 1 exactly when a first argument exists and is not `-x2`; it returns
no other value. -/
theorem exit_code_taxonomy (argc : Int) (argv : List (Option String)) (info : SYSTEM_INFO)
    (hs : startup argc argv = true) (h1 : 1 ≤ argc) :
    ∃ trace code, main argc argv info = .exit trace code ∧
      (code = 0 ↔ (argc = 1 ∨ argv[1]? = some (some "-x2"))) ∧
      (code = 1 ↔ (2 ≤ argc ∧ ∃ s, argv[1]? = some (some s) ∧ s ≠ "-x2")) ∧
      (code = 0 ∨ code = 1) := by
  by_cases hone : argc = 1
  · subst hone
    have hnull := startup_one argv hs
    refine ⟨_, 0, main_no_argument argv info, by simp, ?_, Or.inl rfl⟩
    constructor
    · intro h
      exact absurd h (by decide)
    · rintro ⟨h, _⟩
      exact absurd h (by decide)
  · have h2 : 2 ≤ argc := by omega
    obtain ⟨s, hsome⟩ := startup_first_argument argc argv hs h2
    by_cases hx : s = "-x2"
    · subst hx
      refine ⟨_, 0, main_x2 argc argv info h2 hsome, by simp [hsome], ?_, Or.inl rfl⟩
      constructor
      · intro h
        exact absurd h (by decide)
      · rintro ⟨_, t, ht, hne⟩
        rw [hsome] at ht
        simp only [Option.some.injEq] at ht
        exact absurd ht.symm hne
    · refine ⟨_, 1, main_other argc argv info s h2 hsome hx, ?_, ?_, Or.inr rfl⟩
      · constructor
        · intro h
          exact absurd h (by decide)
        · rintro (h | h)
          · exact absurd h hone
          · rw [hsome] at h
            simp only [Option.some.injEq] at h
            exact absurd h hx
      · constructor
        · intro _
          exact ⟨h2, s, hsome, hx⟩
        · intro _
          rfl

/-- C4 for the command line `cpucount -x2 -j` on a host with 8 processors. -/
theorem exit_code_taxonomy_witness :
    startup 3 (commandLine "cpucount" ["-x2", "-j"]) = true ∧ (1 : Int) ≤ 3 ∧
    ∃ trace code, main 3 (commandLine "cpucount" ["-x2", "-j"]) ⟨8⟩ = .exit trace code ∧
      (code = 0 ↔ ((3 : Int) = 1 ∨
        (commandLine "cpucount" ["-x2", "-j"])[1]? = some (some "-x2"))) ∧
      (code = 1 ↔ ((2 : Int) ≤ 3 ∧
        ∃ s, (commandLine "cpucount" ["-x2", "-j"])[1]? = some (some s) ∧ s ≠ "-x2")) ∧
      (code = 0 ∨ code = 1) :=
  ⟨by decide, by decide,
    exit_code_taxonomy 3 (commandLine "cpucount" ["-x2", "-j"]) ⟨8⟩ (by decide) (by decide)⟩

/-- C5: two argument vectors with `argc ≥ 2` that agree on `argv[1]` give the
same run on the same host, so the same standard output and exit code, whatever
`argv[0]`, `argv[2..]` and `argc` are; in particular the run equals that of the
invocation with the first argument alone, and under the startup convention it
returns. -/
theorem only_first_argument (argc argc2 : Int) (argv argv2 : List (Option String))
    (info : SYSTEM_INFO) (h : 2 ≤ argc) (h2 : 2 ≤ argc2) (heq : argv[1]? = argv2[1]?) :
    main argc argv info = main argc2 argv2 info ∧
      (main argc argv info).stdout = (main argc2 argv2 info).stdout ∧
      (main argc argv info).code = (main argc2 argv2 info).code ∧
      (∀ program s, argv[1]? = some (some s) →
        main argc argv info = main 2 (commandLine program [s]) info) ∧
      (startup argc argv = true → ∃ trace code, main argc argv info = .exit trace code) := by
  have hc : argc ≠ 1 := by omega
  have hc2 : argc2 ≠ 1 := by omega
  have hmain : main argc argv info = main argc2 argv2 info := by
    simp only [main, hc, hc2, if_false, heq]
  refine ⟨hmain, by rw [hmain], by rw [hmain], ?_, ?_⟩
  · intro program s hs
    simp only [main, hc, if_false, hs]
    simp [commandLine]
  · intro hs
    exact main_returns argc argv info hs (by omega)

/-- C5 for `cpucount -x2 a b` against `make.exe -x2` on a host with 8 processors. -/
theorem only_first_argument_witness :
    (2 : Int) ≤ 4 ∧ (2 : Int) ≤ 2 ∧
      (commandLine "cpucount" ["-x2", "a", "b"])[1]? = (commandLine "make.exe" ["-x2"])[1]? ∧
      (main 4 (commandLine "cpucount" ["-x2", "a", "b"]) ⟨8⟩ =
          main 2 (commandLine "make.exe" ["-x2"]) ⟨8⟩ ∧
        (main 4 (commandLine "cpucount" ["-x2", "a", "b"]) ⟨8⟩).stdout =
          (main 2 (commandLine "make.exe" ["-x2"]) ⟨8⟩).stdout ∧
        (main 4 (commandLine "cpucount" ["-x2", "a", "b"]) ⟨8⟩).code =
          (main 2 (commandLine "make.exe" ["-x2"]) ⟨8⟩).code ∧
        (∀ program s, (commandLine "cpucount" ["-x2", "a", "b"])[1]? = some (some s) →
          main 4 (commandLine "cpucount" ["-x2", "a", "b"]) ⟨8⟩ =
            main 2 (commandLine program [s]) ⟨8⟩) ∧
        (startup 4 (commandLine "cpucount" ["-x2", "a", "b"]) = true →
          ∃ trace code, main 4 (commandLine "cpucount" ["-x2", "a", "b"]) ⟨8⟩ =
            .exit trace code)) :=
  ⟨by decide, by decide, by decide,
    only_first_argument 4 2 (commandLine "cpucount" ["-x2", "a", "b"])
      (commandLine "make.exe" ["-x2"]) ⟨8⟩ (by decide) (by decide) (by decide)⟩


/-- C6 at the failing input: without arguments on a host whose processor count
is 2^32 - 1, `main` succeeds and the text it writes before the newline is `-1`,
which carries a sign and so is not a plain decimal numeral. -/
theorem signed_output_not_plain_decimal :
    (main 1 (commandLine "cpucount" []) ⟨4294967295⟩).stdout = "-1" ++ "\n" ∧
      (main 1 (commandLine "cpucount" []) ⟨4294967295⟩).code = some 0 ∧
      isPlainDecimal "-1" = false := by
  decide

/-- The decimal representation of a natural number is a plain decimal numeral. -/
theorem repr_plain_decimal (n : Nat) : isPlainDecimal (Nat.repr n) = true := by
  obtain ⟨hne, hall, _, hhead⟩ := toDigits_decimal n
  unfold isPlainDecimal
  rw [repr_data]
  have hempty : (Nat.toDigits 10 n).isEmpty = false := by
    cases hd : Nat.toDigits 10 n with
    | nil => exact absurd hd hne
    | cons c cs => rfl
  rw [hempty]
  simp only [Bool.not_false, Bool.true_and, Bool.and_eq_true, List.all_eq_true,
    Bool.or_eq_true, bne_iff_ne, ne_eq, beq_iff_eq]
  refine ⟨hall, ?_⟩
  by_cases hz : n = 0
  · right
    rw [hz]
    rfl
  · left
    exact fun h => hz (hhead h)

/-- Every run of `main` on an argument vector with `argc ≥ 1` writes a text that
ends in a newline and has no newline before it. -/
theorem stdout_single_newline (argc : Int) (argv : List (Option String)) (info : SYSTEM_INFO)
    (hs : startup argc argv = true) (h1 : 1 ≤ argc) :
    ∃ body : String, (main argc argv info).stdout = body ++ "\n" ∧
      Char.ofNat 10 ∉ body.data := by
  by_cases hone : argc = 1
  · subst hone
    refine ⟨fmtLong (asLong info.dwNumberOfProcessors), ?_, newline_not_in_fmtLong _⟩
    rw [main_no_argument]
    simp [Outcome.stdout, Outcome.trace, writes, join_single, printf_ld]
  · have h2 : 2 ≤ argc := by omega
    obtain ⟨s, hsome⟩ := startup_first_argument argc argv hs h2
    by_cases hx : s = "-x2"
    · subst hx
      refine ⟨fmtLong (asLong ((info.dwNumberOfProcessors + info.dwNumberOfProcessors)
        % DWORD_RANGE)), ?_, newline_not_in_fmtLong _⟩
      rw [main_x2 argc argv info h2 hsome]
      simp [Outcome.stdout, Outcome.trace, writes, join_single, printf_ld]
    · refine ⟨"Unknown parameter specified. Exiting.", ?_, by decide⟩
      rw [main_other argc argv info s h2 hsome hx]
      simp only [Outcome.stdout, Outcome.trace, writes, join_single]
      decide

/-- C7, as stated, fails: when the host query stores 0, `main` without arguments
prints `0`, which is not an integer N ≥ 1. -/
theorem zero_count_prints_zero :
    (main 1 (commandLine "cpucount" []) ⟨0⟩).stdout = "0\n" ∧
      (main 1 (commandLine "cpucount" []) ⟨0⟩).code = some 0 ∧
      ¬ ∃ k : Int, 1 ≤ k ∧
        (main 1 (commandLine "cpucount" []) ⟨0⟩).stdout = fmtLong k ++ "\n" := by
  refine ⟨by decide, by decide, ?_⟩
  rintro ⟨k, hk, h⟩
  have h0 : (main 1 (commandLine "cpucount" []) ⟨0⟩).stdout = fmtLong 0 ++ "\n" := by decide
  rw [h0] at h
  have := fmtLong_injective _ _ (append_newline_cancel _ _ h)
  omega

/-- C7, amended: for every value N with 1 ≤ N < 2^31 that the host query stores
in `dwNumberOfProcessors`, `main` without arguments prints the integer N, which
is at least 1, followed by a newline, and returns 0. -/
theorem no_argument_positive (argv : List (Option String)) (N : Nat)
    (h1 : 1 ≤ N) (hN : N < 2 ^ 31) :
    ∃ k : Int, 1 ≤ k ∧ k = (N : Int) ∧
      (main 1 argv ⟨N⟩).stdout = fmtLong k ++ "\n" ∧
      (main 1 argv ⟨N⟩).code = some 0 := by
  refine ⟨(N : Int), by omega, rfl, ?_, ?_⟩
  · rw [no_argument_prints_count argv N hN, fmtLong_natCast]
    simp [Outcome.stdout, Outcome.trace, writes, join_single]
  · rw [main_no_argument]
    rfl

/-- C7, amended, on a host with 8 processors. -/
theorem no_argument_positive_witness :
    1 ≤ 8 ∧ 8 < 2 ^ 31 ∧
      ∃ k : Int, 1 ≤ k ∧ k = ((8 : Nat) : Int) ∧
        (main 1 (commandLine "cpucount" []) ⟨8⟩).stdout = fmtLong k ++ "\n" ∧
        (main 1 (commandLine "cpucount" []) ⟨8⟩).code = some 0 :=
  ⟨by decide, by decide,
    no_argument_positive (commandLine "cpucount" []) 8 (by decide) (by decide)⟩

/-- Whenever a run of `main` returns, on any arguments at all, its trace ends
with its only `printf` call and every effect before it only reads; a run that
faults has written nothing. -/
theorem returns_after_one_write (argc : Int) (argv : List (Option String))
    (info : SYSTEM_INFO) :
    (∀ trace code, main argc argv info = .exit trace code →
      ∃ before text, trace = before ++ [.printf text] ∧ (∀ e ∈ before, e.isRead = true) ∧
        writes trace = [text]) ∧
    (∀ trace why, main argc argv info = .fault trace why → writes trace = []) := by
  by_cases hone : argc = 1
  · subst hone
    rw [main_no_argument]
    refine ⟨?_, fun _ _ h => Outcome.noConfusion h⟩
    intro trace code h
    obtain ⟨rfl, _⟩ := Outcome.exit.inj h
    exact ⟨[.GetSystemInfo], _, rfl, by decide, rfl⟩
  · cases hv : argv[1]? with
    | none =>
      simp only [main, hone, if_false, hv]
      refine ⟨fun _ _ h => Outcome.noConfusion h, ?_⟩
      intro trace why h
      obtain ⟨rfl, _⟩ := Outcome.fault.inj h
      rfl
    | some entry =>
      cases entry with
      | none =>
        simp only [main, hone, if_false, hv]
        refine ⟨fun _ _ h => Outcome.noConfusion h, ?_⟩
        intro trace why h
        obtain ⟨rfl, _⟩ := Outcome.fault.inj h
        rfl
      | some s =>
        have hread : ∀ e ∈ [Effect.readArgv 1, Effect.strcmp s "-x2"], e.isRead = true := by
          intro e he
          simp only [List.mem_cons, List.mem_singleton, List.not_mem_nil, or_false] at he
          rcases he with rfl | rfl <;> rfl
        have hread2 : ∀ e ∈ [Effect.readArgv 1, Effect.strcmp s "-x2", Effect.GetSystemInfo],
            e.isRead = true := by
          intro e he
          simp only [List.mem_cons, List.mem_singleton, List.not_mem_nil, or_false] at he
          rcases he with rfl | rfl | rfl <;> rfl
        by_cases hz : strcmp s "-x2" = 0
        · simp only [main, hone, if_false, hv, hz, if_true]
          refine ⟨?_, fun _ _ h => Outcome.noConfusion h⟩
          intro trace code h
          obtain ⟨rfl, _⟩ := Outcome.exit.inj h
          exact ⟨[.readArgv 1, .strcmp s "-x2", .GetSystemInfo], _, rfl, hread2, rfl⟩
        · simp only [main, hone, if_false, hv, hz]
          refine ⟨?_, fun _ _ h => Outcome.noConfusion h⟩
          intro trace code h
          obtain ⟨rfl, _⟩ := Outcome.exit.inj h
          exact ⟨[.readArgv 1, .strcmp s "-x2"], _, rfl, hread, rfl⟩

/-- C8: a run of `main` performs exactly one write to standard output before
returning and nothing else that is observable.  On any arguments, a run that
returns has a trace that ends with its only `printf` call, every effect before
it only reading, and a run that faults has written nothing; for every argument
vector with `argc ≥ 1` and every host the run does return, so no path writes
twice or returns without writing. -/
theorem single_write (argc : Int) (argv : List (Option String)) (info : SYSTEM_INFO) :
    (∀ trace code, main argc argv info = .exit trace code →
      ∃ before text, trace = before ++ [.printf text] ∧ (∀ e ∈ before, e.isRead = true) ∧
        writes trace = [text]) ∧
    (∀ trace why, main argc argv info = .fault trace why → writes trace = []) ∧
    (startup argc argv = true → 1 ≤ argc →
      ∃ before text code, main argc argv info = .exit (before ++ [.printf text]) code ∧
        (∀ e ∈ before, e.isRead = true) ∧
        writes (main argc argv info).trace = [text] ∧
        (writes (main argc argv info).trace).length = 1) := by
  obtain ⟨hexit, hfault⟩ := returns_after_one_write argc argv info
  refine ⟨hexit, hfault, ?_⟩
  intro hs h1
  obtain ⟨trace, code, hrun⟩ := main_returns argc argv info hs h1
  obtain ⟨before, text, rfl, hb, hw⟩ := hexit trace code hrun
  refine ⟨before, text, code, hrun, hb, ?_, ?_⟩
  · rw [hrun]
    exact hw
  · rw [hrun]
    simp only [Outcome.trace, hw, List.length_singleton]

/-- C8 for the command line `cpucount -j4` on a host with 8 processors. -/
theorem single_write_witness :
    startup 2 (commandLine "cpucount" ["-j4"]) = true ∧ (1 : Int) ≤ 2 ∧
      ∃ before text code,
        main 2 (commandLine "cpucount" ["-j4"]) ⟨8⟩ = .exit (before ++ [.printf text]) code ∧
        (∀ e ∈ before, e.isRead = true) ∧
        writes (main 2 (commandLine "cpucount" ["-j4"]) ⟨8⟩).trace = [text] ∧
        (writes (main 2 (commandLine "cpucount" ["-j4"]) ⟨8⟩).trace).length = 1 :=
  ⟨by decide, by decide,
    (single_write 2 (commandLine "cpucount" ["-j4"]) ⟨8⟩).2.2 (by decide) (by decide)⟩

/-- What `main` writes when `argv[1]` is `-x2`. -/
theorem x2_stdout (argc : Int) (argv : List (Option String)) (N : Nat)
    (h2 : 2 ≤ argc) (hx : argv[1]? = some (some "-x2")) :
    (main argc argv ⟨N⟩).stdout = fmtLong (asLong ((N + N) % 2 ^ 32)) ++ "\n" := by
  rw [main_x2 argc argv ⟨N⟩ h2 hx]
  simp [Outcome.stdout, Outcome.trace, writes, join_single, printf_ld, DWORD_RANGE]

/-- C9: with `-x2`, `main` prints the sum of the processor count with itself
taken modulo 2^32 and read as a signed 32-bit `long`.  The printed number is
2 × N for every N below 2^30; for N below 2^31 it is 2 × N exactly when
2 × N < 2^31; and for some N ≥ 2^30 it differs from 2 × N. -/
theorem x2_wrapped_signed (argc : Int) (argv : List (Option String)) (N : Nat)
    (h2 : 2 ≤ argc) (hx : argv[1]? = some (some "-x2")) (hN : N < 2 ^ 32) :
    (main argc argv ⟨N⟩).stdout = fmtLong (asLong ((N + N) % 2 ^ 32)) ++ "\n" ∧
      (N < 2 ^ 30 → (main argc argv ⟨N⟩).stdout = fmtLong ((2 * N : Nat) : Int) ++ "\n") ∧
      (N < 2 ^ 31 →
        ((main argc argv ⟨N⟩).stdout = fmtLong ((2 * N : Nat) : Int) ++ "\n" ↔
          2 * N < 2 ^ 31)) ∧
      (∃ M, 2 ^ 30 ≤ M ∧ M < 2 ^ 32 ∧
        (main argc argv ⟨M⟩).stdout ≠ fmtLong ((2 * M : Nat) : Int) ++ "\n") := by
  have hout := x2_stdout argc argv N h2 hx
  have hsmall : N < 2 ^ 31 → (N + N) % 2 ^ 32 = 2 * N := by
    intro h
    omega
  refine ⟨hout, ?_, ?_, ?_⟩
  · intro h
    rw [hout, hsmall (by omega), asLong_small (2 * N) (by omega)]
  · intro h
    rw [hout, hsmall h]
    constructor
    · intro heq
      have hv := fmtLong_injective _ _ (append_newline_cancel _ _ heq)
      by_contra hge
      rw [asLong_large (2 * N) (by omega) (by omega)] at hv
      omega
    · intro hlt
      rw [asLong_small (2 * N) hlt]
  · refine ⟨2 ^ 30, le_refl _, by norm_num, ?_⟩
    rw [x2_stdout argc argv (2 ^ 30) h2 hx]
    decide

/-- C9 for `cpucount -x2` when the stored processor count is 3000000000. -/
theorem x2_wrapped_signed_witness :
    (2 : Int) ≤ 2 ∧ (commandLine "cpucount" ["-x2"])[1]? = some (some "-x2") ∧
      3000000000 < 2 ^ 32 ∧
      ((main 2 (commandLine "cpucount" ["-x2"]) ⟨3000000000⟩).stdout =
          fmtLong (asLong ((3000000000 + 3000000000) % 2 ^ 32)) ++ "\n" ∧
        (3000000000 < 2 ^ 30 →
          (main 2 (commandLine "cpucount" ["-x2"]) ⟨3000000000⟩).stdout =
            fmtLong ((2 * 3000000000 : Nat) : Int) ++ "\n") ∧
        (3000000000 < 2 ^ 31 →
          ((main 2 (commandLine "cpucount" ["-x2"]) ⟨3000000000⟩).stdout =
            fmtLong ((2 * 3000000000 : Nat) : Int) ++ "\n" ↔ 2 * 3000000000 < 2 ^ 31)) ∧
        (∃ M, 2 ^ 30 ≤ M ∧ M < 2 ^ 32 ∧
          (main 2 (commandLine "cpucount" ["-x2"]) ⟨M⟩).stdout ≠
            fmtLong ((2 * M : Nat) : Int) ++ "\n")) :=
  ⟨by decide, by decide, by decide,
    x2_wrapped_signed 2 (commandLine "cpucount" ["-x2"]) 3000000000 (by decide) (by decide)
      (by decide)⟩

/-- C10: under the C startup convention, when `argc ≥ 1` the run of `main`
returns without fault, it evaluates `argv[1]` exactly when `argc ≥ 2`, and then
`argv[1]` is a string, so the index is in bounds and `strcmp` gets no null
pointer; the run faults exactly when `argc = 0`, where `argv[1]` is read past
the end of the array. -/
theorem argv_read_in_bounds (argc : Int) (argv : List (Option String)) (info : SYSTEM_INFO)
    (hs : startup argc argv = true) :
    (1 ≤ argc →
      (∃ trace code, main argc argv info = .exit trace code) ∧
      (Effect.readArgv 1 ∈ (main argc argv info).trace ↔ 2 ≤ argc) ∧
      (Effect.readArgv 1 ∈ (main argc argv info).trace → ∃ s, argv[1]? = some (some s))) ∧
    ((∃ trace why, main argc argv info = .fault trace why) ↔ argc = 0) ∧
    (argc = 0 → main argc argv info = .fault [.readArgv 1] .outOfBounds) := by
  have hzero : argc = 0 → main argc argv info = .fault [.readArgv 1] .outOfBounds := by
    intro h0
    subst h0
    have hnone := startup_zero argv hs
    simp [main, hnone]
  have hnonneg : 0 ≤ argc := by
    unfold startup at hs
    simp only [Bool.and_eq_true, decide_eq_true_eq] at hs
    exact hs.1.1.1
  have hret : 1 ≤ argc → ∃ trace code, main argc argv info = .exit trace code := by
    intro h1
    exact main_returns argc argv info hs h1
  have hread : 1 ≤ argc → (Effect.readArgv 1 ∈ (main argc argv info).trace ↔ 2 ≤ argc) := by
    intro h1
    by_cases hone : argc = 1
    · subst hone
      rw [main_no_argument]
      simp [Outcome.trace]
    · have h2 : 2 ≤ argc := by omega
      obtain ⟨s, hsome⟩ := startup_first_argument argc argv hs h2
      by_cases hx : s = "-x2"
      · subst hx
        rw [main_x2 argc argv info h2 hsome]
        simp [Outcome.trace, h2]
      · rw [main_other argc argv info s h2 hsome hx]
        simp [Outcome.trace, h2]
  refine ⟨fun h1 => ⟨hret h1, hread h1, ?_⟩, ?_, hzero⟩
  · intro hmem
    exact startup_first_argument argc argv hs ((hread h1).mp hmem)
  · constructor
    · rintro ⟨t, w, hf⟩
      by_contra hne
      obtain ⟨t2, c, he⟩ := hret (by omega)
      rw [he] at hf
      exact Outcome.noConfusion hf
    · intro h0
      exact ⟨_, _, hzero h0⟩

/-- C10 for the command line `cpucount -x2` on a host with 8 processors. -/
theorem argv_read_in_bounds_witness :
    startup 2 (commandLine "cpucount" ["-x2"]) = true ∧
    ((1 ≤ (2 : Int) →
      (∃ trace code, main 2 (commandLine "cpucount" ["-x2"]) ⟨8⟩ = .exit trace code) ∧
      (Effect.readArgv 1 ∈ (main 2 (commandLine "cpucount" ["-x2"]) ⟨8⟩).trace ↔
        (2 : Int) ≤ 2) ∧
      (Effect.readArgv 1 ∈ (main 2 (commandLine "cpucount" ["-x2"]) ⟨8⟩).trace →
        ∃ s, (commandLine "cpucount" ["-x2"])[1]? = some (some s))) ∧
    ((∃ trace why, main 2 (commandLine "cpucount" ["-x2"]) ⟨8⟩ = .fault trace why) ↔
      (2 : Int) = 0) ∧
    ((2 : Int) = 0 →
      main 2 (commandLine "cpucount" ["-x2"]) ⟨8⟩ = .fault [.readArgv 1] .outOfBounds)) :=
  ⟨by decide, argv_read_in_bounds 2 (commandLine "cpucount" ["-x2"]) ⟨8⟩ (by decide)⟩

/-- With `argc = 0` the startup convention leaves `argv` with its closing null
pointer alone, and the run reads `argv[1]` past it. -/
theorem argc_zero_faults :
    startup 0 [none] = true ∧ main 0 [none] ⟨8⟩ = .fault [.readArgv 1] .outOfBounds := by
  decide

end Cpucount
